import Mathlib

/-!
Verification of the num network uptime monitor (src/main.rs, src/engine.rs).

The development shallowly embeds the program's startup validation, file
creation, target resolution, probe loop state updates, and CSV ledger
serialization, and proves or refutes the specification's claims about them.

Machine integers (u64, u32, u8) are modelled as Nat with explicit bounds and,
where overflow matters, explicit reduction modulo 2 ^ 64 (release-build
wrapping semantics of Rust arithmetic).
-/

namespace NumMonitor

/-! ## File system model (tokio::fs boundary)

The file system is an association list from path strings to contents; the
first matching entry wins, so prepending an entry overwrites a path. -/

abbrev FS := List (String × String)

def FS.read (fs : FS) (p : String) : Option String :=
  match fs with
  | [] => none
  | q :: rest => if q.1 = p then some q.2 else FS.read rest p

/-- Rust File::create semantics: create or truncate; an existing file at the
path is silently overwritten, creation does not fail on collision. -/
def fileCreateWrite (fs : FS) (p content : String) : FS :=
  (p, content) :: fs

/-- Rust OpenOptions::new().create_new(true) semantics: fails if the path
already exists, otherwise creates the file with the given contents. -/
def createNewWrite (fs : FS) (p content : String) : Except Unit FS :=
  if (fs.read p).isSome then .error () else .ok ((p, content) :: fs)

/-! ## Startup validation and file creation (main.rs, engine.rs) -/

def U64 : Nat := 2 ^ 64

/-- main.rs line 91: the run is rejected when timeout >= delay * 1000, where
delay * 1000 is u64 multiplication (wrapping modulo 2 ^ 64 in release builds). -/
def timing_rejected (timeout delay : Nat) : Bool :=
  decide ((delay * 1000) % U64 ≤ timeout)

/-- main.rs lines 58-62: clap value_parser u8 range(1..25) for --num-bytes. -/
def num_bytes_accepted (n : Nat) : Bool :=
  decide (1 ≤ n ∧ n < 25)

/-- main.rs lines 63-67: clap value_parser u32 range(1..) for --ttl; any u32
value of at least 1 passes validation. -/
def ttl_accepted (t : Nat) : Bool :=
  decide (1 ≤ t ∧ t < 2 ^ 32)

/-- main.rs line 54-57: clap value_parser u64 range(5..) for --delay. -/
def delay_accepted (d : Nat) : Bool :=
  decide (5 ≤ d ∧ d < U64)

/-- engine.rs create_config line 140: the JSON config snapshot contents. -/
def js_string (address : String) (num_bytes timeout_ms ttl delay : Nat) : String :=
  "\x7b\"address\": \"" ++ address ++ "\",\"num_bytes\": " ++ toString num_bytes ++
  ",\"timeout\": \"" ++ toString timeout_ms ++ "ms\",\"ttl\": " ++ toString ttl ++
  ",\"delay\": \"" ++ toString delay ++ "s\"\x7d"

/-- engine.rs line 147-150: path of the config snapshot. -/
def config_path (dir ts : String) : String :=
  dir ++ "/config_" ++ ts ++ ".json"

/-- engine.rs line 162-165: path of the result CSV. -/
def result_path (dir ts : String) : String :=
  dir ++ "/result_" ++ ts ++ ".csv"

/-- engine.rs line 173: the fixed CSV header written by init_csv. -/
def headerLine : String := "Timestamp,Latency(ms)\n"

/-- engine.rs create_config (lines 139-158): File::create then write_all of
the JSON snapshot. Overwrites any pre-existing file at the path. -/
def create_config (fs : FS) (dir ts js : String) : FS :=
  fileCreateWrite fs (config_path dir ts) js

/-- engine.rs init_csv (lines 161-182): create_new(true) the CSV, write the
header; fails if the path already exists. -/
def init_csv (fs : FS) (dir ts : String) : Except Unit FS :=
  createNewWrite fs (result_path dir ts) headerLine

inductive StartErr where
  | badPath
  | timingMismatch
  | csvCollision
deriving DecidableEq, Repr

/-- Startup pipeline of main.rs lines 81-113 together with the file phase of
Engine::new (engine.rs lines 87-88): output-path check, timing check, then
create_config followed by init_csv. Returns the outcome and the resulting
file system (also on failure, to expose what was written before a failure). -/
def startup (fs : FS) (path_ok : Bool) (timeout delay : Nat) (dir ts js : String) :
    Except StartErr Unit × FS :=
  if ¬ path_ok then (.error .badPath, fs)
  else if timing_rejected timeout delay then (.error .timingMismatch, fs)
  else
    let fs1 := create_config fs dir ts js
    match init_csv fs1 dir ts with
    | .error _ => (.error .csvCollision, fs1)
    | .ok fs2 => (.ok (), fs2)

/-! ## Target resolution (engine.rs process_ip, lines 116-136)

The Rust std address parser and the tokio DNS resolver are external
collaborators; they are passed in as a boundary record. The list component of
the result records the DNS queries that were issued. -/

inductive IpAddr where
  | v4 (bits : Nat)
  | v6 (bits : Nat)
deriving DecidableEq, Repr

structure NetBoundary where
  parse_ip : String → Option IpAddr
  lookup_host : String → Except Unit (List (IpAddr × Nat))

inductive ResolvePanic where
  | unreachable
  | emptyLookup
deriving DecidableEq, Repr

/-- Rust str::contains(':') — true when some character of the string is a
colon. -/
def contains_colon (addr : String) : Bool :=
  addr.data.any (fun c => c == ':')

/-- engine.rs process_ip: parse as a literal; on parse failure do a DNS lookup
of the string itself when it contains a colon, otherwise of the string with
":80" appended, and take the first returned address; lookup failure or an
empty lookup result is a panic (expect / unwrap). -/
def process_ip (B : NetBoundary) (addr : String) :
    Except ResolvePanic IpAddr × List String :=
  match B.parse_ip addr with
  | none =>
    if contains_colon addr then
      match B.lookup_host addr with
      | .error _ => (.error .unreachable, [addr])
      | .ok [] => (.error .emptyLookup, [addr])
      | .ok (s :: _) => (.ok s.1, [addr])
    else
      match B.lookup_host (addr ++ ":80") with
      | .error _ => (.error .unreachable, [addr ++ ":80"])
      | .ok [] => (.error .emptyLookup, [addr ++ ":80"])
      | .ok (s :: _) => (.ok s.1, [addr ++ ":80"])
  | some ip => (.ok ip, [])

/-- The query string process_ip hands to the resolver when the literal parse
fails (engine.rs lines 119-133). -/
def lookup_query (addr : String) : String :=
  if contains_colon addr then addr else addr ++ ":80"

/-! ## Probe engine state and ledger (engine.rs ping / write_csv)

A ping outcome is some rtt (nanoseconds) for Ok((packet, rtt)) and none for
Err(SurgeError). The ledger separates flushed from merely buffered rows so
that the flush-before-return behaviour of write_csv is visible. -/

abbrev PingOutput := Option Nat

structure Row where
  ts : Nat
  rtt : PingOutput
deriving DecidableEq, Repr

structure Ledger where
  flushed : List Row
  buffered : List Row
deriving DecidableEq, Repr

def Ledger.write_all (l : Ledger) (r : Row) : Ledger :=
  { l with buffered := l.buffered ++ [r] }

def Ledger.flush (l : Ledger) : Ledger :=
  ⟨l.flushed ++ l.buffered, []⟩

structure Engine where
  ledger : Ledger
  last_successful_latency : Option Nat
  last_successful_time : Option Nat
  last_failed_time : Option Nat
deriving DecidableEq, Repr

/-- engine.rs write_csv (lines 185-206): serialize the row, write_all it to
the result file handle, then flush before returning. -/
def Engine.write_csv (e : Engine) (timestamp : Nat) (result : PingOutput) : Engine :=
  { e with ledger := (e.ledger.write_all ⟨timestamp, result⟩).flush }

/-- engine.rs ping (lines 94-112), given the wall-clock time sampled at entry
and the transport's output: append the row via write_csv, then update the
rolling fields, then return the pair (curr_time, output). -/
def Engine.ping (e : Engine) (curr_time : Nat) (output : PingOutput) :
    (Nat × PingOutput) × Engine :=
  let e1 := e.write_csv curr_time output
  let e2 :=
    match output with
    | some rtt =>
      { e1 with last_successful_latency := some rtt, last_successful_time := some curr_time }
    | none => { e1 with last_failed_time := some curr_time }
  ((curr_time, output), e2)

/-- ping with the wall clock modelled as a function of an abstract step
counter: engine.rs line 98 samples the clock at the entry step, before the
transport await on line 103, so only the entry-step reading can influence the
returned timestamp. -/
def Engine.pingTimed (e : Engine) (clock : Nat → Nat) (entry : Nat) (output : PingOutput) :
    (Nat × PingOutput) × Engine :=
  e.ping (clock entry) output

/-- Rolling state as Engine::new leaves it (engine.rs lines 75-77): no
success, no failure recorded; result file open with no data rows. -/
def Engine.init : Engine :=
  ⟨⟨[], []⟩, none, none, none⟩

/-- Feeding a sequence of (sampled time, transport output) probes through
ping, as the monitor loop of main.rs lines 120-151 does once per tick. -/
def Engine.run (e : Engine) (ps : List (Nat × PingOutput)) : Engine :=
  ps.foldl (fun s p => (s.ping p.1 p.2).2) e

/-- engine.rs line 208-210: unwraps last_successful_latency; the none case is
the panic. -/
def Engine.get_last_successful_latency (e : Engine) : Option Nat :=
  e.last_successful_latency

/-- engine.rs line 212-214. -/
def Engine.get_possible_last_successful_time (e : Engine) : Option Nat :=
  e.last_successful_time

/-- engine.rs line 216-218. -/
def Engine.get_possible_last_failed_time (e : Engine) : Option Nat :=
  e.last_failed_time

/-! ## CSV row serialization (engine.rs write_csv line 190-197)

Rows are rendered to character lists. The latency field is
Duration::as_millis (nanoseconds divided by 1_000_000, truncating) rendered
in standard decimal as u128::to_string does, or the literal sentinel for a
failed probe. -/

def digitChar (d : Nat) : Char := Char.ofNat (48 + d)

/-- Standard decimal rendering of a Nat, as Rust's to_string produces. -/
def decDigits (n : Nat) : List Char :=
  if _h : n < 10 then [digitChar n]
  else decDigits (n / 10) ++ [digitChar (n % 10)]
decreasing_by exact Nat.div_lt_self (by omega) (by omega)

/-- engine.rs lines 190-193: the latency field of one row. -/
def rtt_field (result : PingOutput) : List Char :=
  match result with
  | some rtt => decDigits (rtt / 1000000)
  | none => "failed".toList

/-- engine.rs line 197: one CSV data row, timestamp display then comma then
latency field then newline. -/
def render_row (tsChars : List Char) (result : PingOutput) : List Char :=
  tsChars ++ [','] ++ rtt_field result ++ ['\n']

/-- The full result file as written by init_csv plus the appended rows, with
the timestamp Display of the time crate abstracted as a function. -/
def csv_lines (disp : Nat → List Char) (e : Engine) : List (List Char) :=
  headerLine.toList :: e.ledger.flushed.map (fun r => render_row (disp r.ts) r.rtt)

/-! ## Parsing a row back (round-trip analysis for the ledger claims) -/

def char_digit (c : Char) : Option Nat :=
  if 48 ≤ c.toNat ∧ c.toNat ≤ 57 then some (c.toNat - 48) else none

def digits_val_aux (a : Nat) : List Char → Option Nat
  | [] => some a
  | c :: cs =>
    match char_digit c with
    | some d => digits_val_aux (a * 10 + d) cs
    | none => none

def split_comma : List Char → Option (List Char × List Char)
  | [] => none
  | c :: cs =>
    if c = ',' then some ([], cs)
    else
      match split_comma cs with
      | some p => some (c :: p.1, p.2)
      | none => none

def parse_rtt (cs : List Char) : Option PingOutput :=
  if cs = "failed\n".toList then some none
  else
    match cs.getLast? with
    | some c => if c = '\n' then (digits_val_aux 0 cs.dropLast).map some else none
    | none => none

def parse_row (cs : List Char) : Option (List Char × PingOutput) :=
  match split_comma cs with
  | some p => (parse_rtt p.2).map (fun o => (p.1, o))
  | none => none

/-! ## Spec-side rolling-state summary

These two definitions follow the specification's words for the refinement
claim about EngineState: the most recent Success outcome's timestamp and
latency, and the most recent Failure outcome's timestamp, of a probe
sequence; later probes take precedence. -/

def spec_last_success : List (Nat × PingOutput) → Option (Nat × Nat)
  | [] => none
  | p :: ps =>
    match spec_last_success ps with
    | some q => some q
    | none =>
      match p.2 with
      | some rtt => some (p.1, rtt)
      | none => none

def spec_last_failure : List (Nat × PingOutput) → Option Nat
  | [] => none
  | p :: ps =>
    match spec_last_failure ps with
    | some t => some t
    | none =>
      match p.2 with
      | some _ => none
      | none => some p.1

/-! ## Helper lemmas -/

/-- The two derived filenames never coincide (different extensions). -/
theorem result_ne_config (dir ts : String) : result_path dir ts ≠ config_path dir ts := by
  intro h
  have hl := congrArg String.length h
  have e1 : ("/result_" : String).length = 8 := rfl
  have e2 : ("/config_" : String).length = 8 := rfl
  have e3 : (".csv" : String).length = 4 := rfl
  have e4 : (".json" : String).length = 5 := rfl
  simp [result_path, config_path, String.length_append, e1, e2, e3, e4] at hl

/-! ## Claims about startup validation and file creation -/

def jsDemo : String := js_string "1.2.3.4" 4 1000 128 120

def fsOld : FS := [(config_path "out" "T", "old")]

/-- Claim C2 counterexample: with a file already present at the derived config
path, startup does not fail; it succeeds and silently overwrites the old
config snapshot, because create_config uses File::create (truncating)
semantics rather than create_new. -/
theorem startup_overwrites_config :
    (fsOld.read (config_path "out" "T")).isSome = true ∧
    (startup fsOld true 1000 120 "out" "T" jsDemo).1 = .ok () ∧
    (startup fsOld true 1000 120 "out" "T" jsDemo).2.read (config_path "out" "T") = some jsDemo ∧
    jsDemo ≠ "old" := by
  refine ⟨rfl, rfl, rfl, ?_⟩
  decide

/-- Claim C2 amended: only the result CSV enjoys no-overwrite protection.
Once the path and timing validations pass, the config snapshot is always
written (overwriting any pre-existing file at its path); startup fails before
any probe exactly when the result CSV path already exists, in which case the
pre-existing CSV is left untouched. -/
theorem startup_file_creation_spec (fs : FS) (timeout delay : Nat) (dir ts js : String)
    (hv : timing_rejected timeout delay = false) :
    (startup fs true timeout delay dir ts js).2.read (config_path dir ts) = some js ∧
    ((fs.read (result_path dir ts)).isSome →
      (startup fs true timeout delay dir ts js).1 = .error .csvCollision ∧
      (startup fs true timeout delay dir ts js).2.read (result_path dir ts) =
        fs.read (result_path dir ts)) ∧
    ((fs.read (result_path dir ts)).isNone →
      (startup fs true timeout delay dir ts js).1 = .ok () ∧
      (startup fs true timeout delay dir ts js).2.read (result_path dir ts) = some headerLine) := by
  have hpne := result_ne_config dir ts
  have hpne' : ¬ (config_path dir ts = result_path dir ts) := fun h => hpne h.symm
  by_cases hcsv : (fs.read (result_path dir ts)).isSome
  · have hstart : startup fs true timeout delay dir ts js =
        (.error .csvCollision, (config_path dir ts, js) :: fs) := by
      simp [startup, hv, init_csv, createNewWrite, create_config, fileCreateWrite,
        FS.read, hpne', hcsv]
    refine ⟨?_, fun _ => ⟨?_, ?_⟩, fun hn => ?_⟩
    · rw [hstart]; simp [FS.read]
    · rw [hstart]
    · rw [hstart]; simp [FS.read, hpne']
    · rw [Option.isNone_iff_eq_none] at hn
      rw [hn] at hcsv
      simp at hcsv
  · have hstart : startup fs true timeout delay dir ts js =
        (.ok (), (result_path dir ts, headerLine) :: (config_path dir ts, js) :: fs) := by
      simp [startup, hv, init_csv, createNewWrite, create_config, fileCreateWrite,
        FS.read, hpne', hcsv]
    refine ⟨?_, fun hs => absurd hs hcsv, fun _ => ⟨?_, ?_⟩⟩
    · rw [hstart]; simp [FS.read, hpne, hpne']
    · rw [hstart]
    · rw [hstart]; simp [FS.read]

/-- Witness for the amended C2 theorem on a concrete empty output directory. -/
theorem startup_file_creation_spec_witness :
    (startup [] true 1000 120 "out" "T" jsDemo).2.read (config_path "out" "T") = some jsDemo ∧
    (startup [] true 1000 120 "out" "T" jsDemo).1 = .ok () ∧
    (startup [] true 1000 120 "out" "T" jsDemo).2.read (result_path "out" "T") = some headerLine := by
  have h := startup_file_creation_spec [] 1000 120 "out" "T" jsDemo (by decide)
  exact ⟨h.1, (h.2.2 (by decide)).1, (h.2.2 (by decide)).2⟩

/-- Claim C3 counterexample: delay 18446744073709552 s is accepted by the
clap range validator, its millisecond conversion overflows u64 (wrapping to
384 in release builds), and a timeout of 999 ms — strictly less than the
mathematical delay in milliseconds — is nevertheless rejected. -/
theorem timing_check_overflow_cex :
    delay_accepted 18446744073709552 = true ∧
    999 < 18446744073709552 * 1000 ∧
    (18446744073709552 * 1000) % U64 = 384 ∧
    timing_rejected 999 18446744073709552 = true := by
  refine ⟨by decide, by decide, by decide, by decide⟩

/-- Claim C3 amended: the startup check rejects exactly when
timeout >= (delay * 1000) mod 2^64 (u64 wrapping multiplication); whenever
timeout >= delay * 1000 mathematically it rejects, and when delay * 1000 does
not overflow u64 the check passes exactly when timeout < delay * 1000.
Rejection produces the timing error before any file is created. -/
theorem timing_check_spec (timeout delay : Nat) (_ht : timeout < U64) (_hd : delay < U64) :
    (timing_rejected timeout delay = true ↔ (delay * 1000) % U64 ≤ timeout) ∧
    (delay * 1000 ≤ timeout → timing_rejected timeout delay = true) ∧
    (delay * 1000 < U64 → (timing_rejected timeout delay = false ↔ timeout < delay * 1000)) ∧
    (∀ fs dir ts js, timing_rejected timeout delay = true →
      startup fs true timeout delay dir ts js = (.error .timingMismatch, fs)) := by
  refine ⟨by simp [timing_rejected], ?_, ?_, ?_⟩
  · intro hle
    have hmod : (delay * 1000) % U64 ≤ delay * 1000 := Nat.mod_le _ _
    simp [timing_rejected]
    omega
  · intro hnof
    simp [timing_rejected, Nat.mod_eq_of_lt hnof]
  · intro fs dir ts js hrej
    simp [startup, hrej]

/-- Witness for the amended C3 theorem at the specification's scenario
timeout=6000 ms, delay=5 s: the run is rejected before any file is created. -/
theorem timing_check_spec_witness :
    timing_rejected 6000 5 = true ∧
    startup [] true 6000 5 "out" "T" jsDemo = (.error .timingMismatch, []) := by
  have h := timing_check_spec 6000 5 (by decide) (by decide)
  have hrej : timing_rejected 6000 5 = true := h.2.1 (by decide)
  exact ⟨hrej, h.2.2.2 [] "out" "T" jsDemo hrej⟩

/-- Claim C4: the num-bytes validator enforces 1..=24 as documented, but the
TTL validator is range(1..) over the full u32 domain, so the documented bound
of 255 is not enforced: 256 (and any larger u32 value) passes validation and
reaches engine construction. -/
theorem ttl_bound_unenforced :
    ttl_accepted 256 = true ∧ ttl_accepted 4294967295 = true ∧
    ttl_accepted 255 = true ∧ ttl_accepted 0 = false ∧
    num_bytes_accepted 24 = true ∧ num_bytes_accepted 25 = false ∧
    num_bytes_accepted 0 = false := by
  decide

/-! ## Claim about target resolution (process_ip) -/

/-- Claim C5: a string the parser accepts as an IPv4/IPv6 literal is returned
unchanged with no DNS query issued; on parse failure exactly one DNS query is
issued — the string itself when it contains a colon, otherwise the string
with the dummy port ":80" appended — and the first returned address is taken;
when that lookup errors or returns no addresses, resolution panics. -/
theorem process_ip_spec (B : NetBoundary) (addr : String) :
    (∀ ip, B.parse_ip addr = some ip → process_ip B addr = (.ok ip, [])) ∧
    (B.parse_ip addr = none → (process_ip B addr).2 = [lookup_query addr]) ∧
    (∀ s rest, B.parse_ip addr = none → B.lookup_host (lookup_query addr) = .ok (s :: rest) →
      (process_ip B addr).1 = .ok s.1) ∧
    (B.parse_ip addr = none →
      (B.lookup_host (lookup_query addr) = .error () ∨ B.lookup_host (lookup_query addr) = .ok []) →
      ∃ er, (process_ip B addr).1 = .error er) := by
  refine ⟨fun ip hp => by simp [process_ip, hp], fun hp => ?_, fun s rest hp hl => ?_,
    fun hp hl => ?_⟩
  · by_cases hc : contains_colon addr
    · cases hres : B.lookup_host addr with
      | error e => simp [process_ip, hp, hc, lookup_query, hres]
      | ok lst => cases lst <;> simp [process_ip, hp, hc, lookup_query, hres]
    · cases hres : B.lookup_host (addr ++ ":80") with
      | error e => simp [process_ip, hp, hc, lookup_query, hres]
      | ok lst => cases lst <;> simp [process_ip, hp, hc, lookup_query, hres]
  · by_cases hc : contains_colon addr <;>
      simp [lookup_query, hc] at hl <;>
      simp [process_ip, hp, hc, hl]
  · rcases hl with hl | hl <;>
      by_cases hc : contains_colon addr <;>
      simp [lookup_query, hc] at hl <;>
      simp [process_ip, hp, hc, hl]

/-- A concrete resolver boundary for the witness: one known literal and one
known hostname. -/
def demoBoundary : NetBoundary :=
  ⟨fun s => if s = "10.0.0.1" then some (.v4 7) else none,
   fun s => if s = "example.com:80" then .ok [(.v4 9, 80)] else .error ()⟩

/-- Witness for the resolver claim at concrete inputs: a literal is returned
unchanged with no query, a hostname without a colon is looked up with the
dummy port and resolves to the first address, and an unknown name panics. -/
theorem process_ip_spec_witness :
    process_ip demoBoundary "10.0.0.1" = (.ok (.v4 7), []) ∧
    (process_ip demoBoundary "example.com").2 = ["example.com:80"] ∧
    (process_ip demoBoundary "example.com").1 = .ok (.v4 9) ∧
    (∃ er, (process_ip demoBoundary "bad.invalid").1 = .error er) := by
  have hq1 : lookup_query "example.com" = "example.com:80" := by rfl
  have hq2 : lookup_query "bad.invalid" = "bad.invalid:80" := by rfl
  refine ⟨(process_ip_spec demoBoundary "10.0.0.1").1 (.v4 7) rfl, ?_, ?_, ?_⟩
  · have h := (process_ip_spec demoBoundary "example.com").2.1 rfl
    rw [hq1] at h
    exact h
  · refine (process_ip_spec demoBoundary "example.com").2.2.1 (IpAddr.v4 9, 80) [] rfl ?_
    rw [hq1]
    rfl
  · refine (process_ip_spec demoBoundary "bad.invalid").2.2.2 rfl (Or.inl ?_)
    rw [hq2]
    rfl

/-! ## Claim about the probe call (ping ordering and persistence) -/

/-- Claim C6: the timestamp ping returns is the clock reading at entry, before
the transport await — a clock that agrees at the entry step yields the very
same result no matter what it reads later — and before ping returns, the row
carrying exactly the returned (timestamp, outcome) pair has been appended and
flushed to the result file. -/
theorem ping_persist_order (e : Engine) (clock clock2 : Nat → Nat) (entry : Nat)
    (output : PingOutput) (hagree : clock2 entry = clock entry) :
    (e.pingTimed clock entry output).1.1 = clock entry ∧
    e.pingTimed clock2 entry output = e.pingTimed clock entry output ∧
    (e.pingTimed clock entry output).2.ledger.flushed =
      e.ledger.flushed ++ e.ledger.buffered ++ [⟨clock entry, output⟩] ∧
    (e.pingTimed clock entry output).2.ledger.buffered = [] ∧
    (e.pingTimed clock entry output).1 = (clock entry, output) ∧
    (⟨(e.pingTimed clock entry output).1.1, (e.pingTimed clock entry output).1.2⟩ : Row) ∈
      (e.pingTimed clock entry output).2.ledger.flushed := by
  cases output <;>
    simp [Engine.pingTimed, Engine.ping, Engine.write_csv, Ledger.write_all, Ledger.flush,
      hagree, List.append_assoc]

/-- Witness for the ping ordering claim: a concrete engine and two clocks that
agree at the entry step but disagree afterwards. -/
theorem ping_persist_order_witness :
    (Engine.init.pingTimed (fun s => 10 * s) 3 (some 5)).1.1 = 30 ∧
    Engine.init.pingTimed (fun s => if s = 3 then 30 else 999) 3 (some 5) =
      Engine.init.pingTimed (fun s => 10 * s) 3 (some 5) ∧
    (Engine.init.pingTimed (fun s => 10 * s) 3 (some 5)).2.ledger.flushed = [⟨30, some 5⟩] ∧
    (⟨(Engine.init.pingTimed (fun s => 10 * s) 3 (some 5)).1.1,
      (Engine.init.pingTimed (fun s => 10 * s) 3 (some 5)).1.2⟩ : Row) ∈
      (Engine.init.pingTimed (fun s => 10 * s) 3 (some 5)).2.ledger.flushed := by
  have h := ping_persist_order Engine.init (fun s => 10 * s)
    (fun s => if s = 3 then 30 else 999) 3 (some 5) rfl
  exact ⟨h.1, h.2.1, by simpa [Engine.init] using h.2.2.1, h.2.2.2.2.2⟩

/-! ## Rolling state over probe sequences -/

/-- Folding ping over a probe sequence leaves exactly the most recent success
and the most recent failure in the rolling fields. -/
theorem run_rolling (ps : List (Nat × PingOutput)) : ∀ e : Engine,
    ((Engine.run e ps).last_successful_time =
      match spec_last_success ps with
      | some q => some q.1
      | none => e.last_successful_time) ∧
    ((Engine.run e ps).last_successful_latency =
      match spec_last_success ps with
      | some q => some q.2
      | none => e.last_successful_latency) ∧
    ((Engine.run e ps).last_failed_time =
      match spec_last_failure ps with
      | some t => some t
      | none => e.last_failed_time) := by
  induction ps with
  | nil => intro e; exact ⟨rfl, rfl, rfl⟩
  | cons p ps ih =>
    intro e
    obtain ⟨t, o⟩ := p
    have hrun : Engine.run e ((t, o) :: ps) = Engine.run ((e.ping t o).2) ps := rfl
    rw [hrun]
    obtain ⟨ih1, ih2, ih3⟩ := ih ((e.ping t o).2)
    rw [ih1, ih2, ih3]
    cases o with
    | some rtt =>
      cases hs : spec_last_success ps <;> cases hf : spec_last_failure ps <;>
        simp [spec_last_success, spec_last_failure, hs, hf, Engine.ping, Engine.write_csv,
          Ledger.write_all, Ledger.flush]
    | none =>
      cases hs : spec_last_success ps <;> cases hf : spec_last_failure ps <;>
        simp [spec_last_success, spec_last_failure, hs, hf, Engine.ping, Engine.write_csv,
          Ledger.write_all, Ledger.flush]

/-- Claim C7: a successful probe sets exactly the success fields to its
timestamp and latency, leaving the failure field untouched; a failed probe
sets exactly the failure field, leaving the success fields untouched; hence
over any probe sequence each rolling field holds the most recent outcome of
its own kind, regardless of intervening outcomes of the other kind. -/
theorem rolling_state_spec :
    (∀ (e : Engine) (t rtt : Nat),
      (e.ping t (some rtt)).2.last_successful_time = some t ∧
      (e.ping t (some rtt)).2.last_successful_latency = some rtt ∧
      (e.ping t (some rtt)).2.last_failed_time = e.last_failed_time) ∧
    (∀ (e : Engine) (t : Nat),
      (e.ping t none).2.last_failed_time = some t ∧
      (e.ping t none).2.last_successful_time = e.last_successful_time ∧
      (e.ping t none).2.last_successful_latency = e.last_successful_latency) ∧
    (∀ ps : List (Nat × PingOutput),
      ((Engine.init.run ps).last_successful_time =
        match spec_last_success ps with
        | some q => some q.1
        | none => none) ∧
      ((Engine.init.run ps).last_successful_latency =
        match spec_last_success ps with
        | some q => some q.2
        | none => none) ∧
      ((Engine.init.run ps).last_failed_time =
        match spec_last_failure ps with
        | some t => some t
        | none => none)) := by
  refine ⟨?_, ?_, ?_⟩
  · intro e t rtt
    exact ⟨rfl, rfl, rfl⟩
  · intro e t
    exact ⟨rfl, rfl, rfl⟩
  · intro ps
    exact run_rolling ps Engine.init

/-! ## Ledger contents over probe sequences -/

/-- Running a probe sequence appends exactly one flushed row per probe, in
order. -/
theorem run_flushed (ps : List (Nat × PingOutput)) : ∀ e : Engine,
    e.ledger.buffered = [] →
    (Engine.run e ps).ledger.flushed =
      e.ledger.flushed ++ ps.map (fun p => (⟨p.1, p.2⟩ : Row)) ∧
    (Engine.run e ps).ledger.buffered = [] := by
  induction ps with
  | nil => intro e he; simpa using ⟨rfl, he⟩
  | cons p ps ih =>
    intro e he
    obtain ⟨t, o⟩ := p
    have hrun : Engine.run e ((t, o) :: ps) = Engine.run ((e.ping t o).2) ps := rfl
    have hled : (e.ping t o).2.ledger = ⟨e.ledger.flushed ++ [⟨t, o⟩], []⟩ := by
      cases o <;>
        simp [Engine.ping, Engine.write_csv, Ledger.write_all, Ledger.flush, he]
    obtain ⟨h1, h2⟩ := ih ((e.ping t o).2) (by rw [hled])
    rw [hrun]
    refine ⟨?_, h2⟩
    rw [h1, hled]
    simp

/-- Claim C8 counterexample: two completed probes whose clock samples go
backwards (100 then 50) produce a result CSV whose two data rows are in tick
order but whose timestamps are not strictly increasing — the engine never
enforces clock monotonicity. -/
theorem ledger_rows_cex :
    ((Engine.init.run [(100, some 0), (50, none)]).ledger.flushed).map Row.ts = [100, 50] ∧
    ((Engine.init.run [(100, some 0), (50, none)]).ledger.flushed).length = 2 ∧
    ¬ List.Chain' (· < ·)
        (((Engine.init.run [(100, some 0), (50, none)]).ledger.flushed).map Row.ts) := by
  have hrows : (Engine.init.run [(100, some 0), (50, none)]).ledger.flushed =
      [⟨100, some 0⟩, ⟨50, none⟩] := rfl
  refine ⟨by rw [hrows]; rfl, by rw [hrows]; rfl, ?_⟩
  rw [hrows]
  simp [List.chain'_cons]

/-- Claim C8 amended: after N completed probes the result CSV holds exactly
one header line plus N data rows, the n-th row carrying the n-th probe's
sampled timestamp and outcome in tick order; the row timestamps are strictly
increasing whenever the per-tick clock samples are strictly increasing. -/
theorem ledger_rows_spec (ps : List (Nat × PingOutput)) (disp : Nat → List Char) :
    (Engine.init.run ps).ledger.flushed = ps.map (fun p => (⟨p.1, p.2⟩ : Row)) ∧
    (csv_lines disp (Engine.init.run ps)).length = 1 + ps.length ∧
    (List.Chain' (· < ·) (ps.map Prod.fst) →
      List.Chain' (· < ·) (((Engine.init.run ps).ledger.flushed).map Row.ts)) := by
  obtain ⟨h1, _h2⟩ := run_flushed ps Engine.init rfl
  have hrows : (Engine.init.run ps).ledger.flushed = ps.map (fun p => (⟨p.1, p.2⟩ : Row)) := by
    simpa using h1
  refine ⟨hrows, ?_, ?_⟩
  · simp [csv_lines, hrows]
    omega
  · intro hmono
    rw [hrows, List.map_map]
    simpa [Function.comp] using hmono

/-- Witness for the amended ledger claim: the specification's three-probe
scenario, latencies 10 ms, 12 ms, 9 ms at strictly increasing times. -/
theorem ledger_rows_spec_witness :
    (Engine.init.run [(1, some 10000000), (2, some 12000000), (3, some 9000000)]).ledger.flushed =
      [⟨1, some 10000000⟩, ⟨2, some 12000000⟩, ⟨3, some 9000000⟩] ∧
    (csv_lines (fun t => decDigits t)
      (Engine.init.run [(1, some 10000000), (2, some 12000000), (3, some 9000000)])).length = 4 ∧
    List.Chain' (· < ·)
      (((Engine.init.run [(1, some 10000000), (2, some 12000000), (3, some 9000000)]).ledger.flushed).map
        Row.ts) := by
  have h := ledger_rows_spec [(1, some 10000000), (2, some 12000000), (3, some 9000000)]
    (fun t => decDigits t)
  refine ⟨by simpa using h.1, by simpa using h.2.1, h.2.2 ?_⟩
  simp [List.chain'_cons]

/-! ## Claim about the latency/time invariant and the unwrap -/

/-- Claim C10: from construction on, last_successful_latency is some exactly
when last_successful_time is some — each ping preserves the invariant — so
get_last_successful_latency cannot panic once
get_possible_last_successful_time has returned some, and it does panic
(returns none in this model) on the freshly constructed engine. -/
theorem latency_time_invariant :
    (∀ (e : Engine) (t : Nat) (o : PingOutput),
      ((e.last_successful_latency).isSome ↔ (e.last_successful_time).isSome) →
      (((e.ping t o).2.last_successful_latency).isSome ↔
        ((e.ping t o).2.last_successful_time).isSome)) ∧
    ((Engine.init.last_successful_latency).isSome ↔
      (Engine.init.last_successful_time).isSome) ∧
    (∀ ps : List (Nat × PingOutput),
      (((Engine.init.run ps).last_successful_latency).isSome ↔
        ((Engine.init.run ps).last_successful_time).isSome)) ∧
    (∀ (ps : List (Nat × PingOutput)) (t : Nat),
      (Engine.init.run ps).get_possible_last_successful_time = some t →
      ∃ l, (Engine.init.run ps).get_last_successful_latency = some l) ∧
    Engine.init.get_last_successful_latency = none := by
  refine ⟨?_, by simp [Engine.init], ?_, ?_, rfl⟩
  · intro e t o hinv
    cases o <;>
      simp [Engine.ping, Engine.write_csv, Ledger.write_all, Ledger.flush, hinv]
  · intro ps
    obtain ⟨h1, h2, _⟩ := run_rolling ps Engine.init
    rw [h1, h2]
    cases hs : spec_last_success ps <;> simp [Engine.init]
  · intro ps t hsome
    obtain ⟨h1, h2, _⟩ := run_rolling ps Engine.init
    rw [Engine.get_possible_last_successful_time, h1] at hsome
    rw [Engine.get_last_successful_latency, h2]
    cases hs : spec_last_success ps with
    | none => rw [hs] at hsome; simp [Engine.init] at hsome
    | some q => exact ⟨q.2, rfl⟩

/-- Witness for the invariant claim: one successful probe makes the unwrap
safe, and the preservation step applies to the fresh engine. -/
theorem latency_time_invariant_witness :
    (((Engine.init.ping 1 (some 2)).2.last_successful_latency).isSome ↔
      ((Engine.init.ping 1 (some 2)).2.last_successful_time).isSome) ∧
    (Engine.init.run [(1, some 2)]).get_possible_last_successful_time = some 1 ∧
    (∃ l, (Engine.init.run [(1, some 2)]).get_last_successful_latency = some l) ∧
    Engine.init.get_last_successful_latency = none := by
  have h := latency_time_invariant
  refine ⟨h.1 Engine.init 1 (some 2) (by simp [Engine.init]), rfl, ?_, h.2.2.2.2⟩
  exact h.2.2.2.1 [(1, some 2)] 1 rfl

/-! ## Round-trip lemmas for CSV rows -/

theorem split_comma_append (ts rest : List Char) (h : ',' ∉ ts) :
    split_comma (ts ++ ',' :: rest) = some (ts, rest) := by
  induction ts with
  | nil => simp [split_comma]
  | cons c cs ih =>
    have hc : ¬ (c = ',') := fun e => h (by simp [e])
    have ih2 := ih (fun hm => h (List.mem_cons_of_mem _ hm))
    simp [split_comma, hc, ih2]

theorem char_digit_digitChar (d : Nat) (h : d < 10) : char_digit (digitChar d) = some d := by
  interval_cases d <;> decide

theorem digits_val_aux_append (xs ys : List Char) : ∀ a : Nat,
    digits_val_aux a (xs ++ ys) =
      match digits_val_aux a xs with
      | some b => digits_val_aux b ys
      | none => none := by
  induction xs with
  | nil => intro a; rfl
  | cons c cs ih =>
    intro a
    cases hc : char_digit c <;> simp [digits_val_aux, hc, ih]

theorem digits_val_decDigits (n : Nat) : ∀ a : Nat,
    digits_val_aux a (decDigits n) = some (a * 10 ^ (decDigits n).length + n) := by
  induction n using Nat.strong_induction_on with
  | _ n ih =>
    intro a
    by_cases h : n < 10
    · rw [decDigits]
      simp [h, digits_val_aux, char_digit_digitChar n h]
    · rw [decDigits]
      simp only [h, dite_false]
      rw [digits_val_aux_append]
      rw [ih (n / 10) (Nat.div_lt_self (by omega) (by omega)) a]
      have hm : n % 10 < 10 := Nat.mod_lt _ (by omega)
      simp only [digits_val_aux, char_digit_digitChar (n % 10) hm, List.length_append,
        List.length_singleton]
      congr 1
      have hq : (10 : Nat) ^ ((decDigits (n / 10)).length + 1) =
          10 ^ (decDigits (n / 10)).length * 10 := pow_succ 10 _
      rw [hq]
      calc (a * 10 ^ (decDigits (n / 10)).length + n / 10) * 10 + n % 10
          = a * (10 ^ (decDigits (n / 10)).length * 10) + (10 * (n / 10) + n % 10) := by ring
        _ = a * (10 ^ (decDigits (n / 10)).length * 10) + n := by rw [Nat.div_add_mod]

theorem decDigits_head (n : Nat) : ∃ c cs, decDigits n = c :: cs ∧ (char_digit c).isSome := by
  induction n using Nat.strong_induction_on with
  | _ n ih =>
    by_cases h : n < 10
    · exact ⟨digitChar n, [], by rw [decDigits]; simp [h],
        by simp [char_digit_digitChar n h]⟩
    · obtain ⟨c, cs, hd, hds⟩ := ih (n / 10) (Nat.div_lt_self (by omega) (by omega))
      refine ⟨c, cs ++ [digitChar (n % 10)], ?_, hds⟩
      rw [decDigits]
      simp [h, hd]

theorem decDigits_ne_failed (n : Nat) : decDigits n ++ ['\n'] ≠ "failed\n".toList := by
  obtain ⟨c, cs, hd, hds⟩ := decDigits_head n
  rw [hd]
  intro he
  have hf : "failed\n".toList = 'f' :: "ailed\n".toList := rfl
  rw [hf] at he
  have hc : c = 'f' := (List.cons.injEq _ _ _ _ ▸ he).1
  rw [hc] at hds
  exact absurd hds (by decide)

theorem parse_rtt_render (result : PingOutput) :
    parse_rtt (rtt_field result ++ ['\n']) =
      some (result.map (fun ns => ns / 1000000)) := by
  cases result with
  | none => rfl
  | some rtt =>
    rw [rtt_field, parse_rtt]
    rw [if_neg (decDigits_ne_failed (rtt / 1000000))]
    rw [List.getLast?_concat]
    simp only [if_pos rfl, List.dropLast_concat]
    rw [digits_val_decDigits (rtt / 1000000) 0]
    simp

/-- Claim C9 counterexample: two in-memory probe outcomes with different
latencies (1 000 000 ns and 1 999 999 ns) produce the very same result file,
because write_csv records only as_millis, truncating sub-millisecond
precision — the written row is not parseable back into the ProbeAttempt's
latency without information loss. -/
theorem row_roundtrip_cex :
    csv_lines decDigits ((Engine.init.ping 0 (some 1000000)).2) =
      csv_lines decDigits ((Engine.init.ping 0 (some 1999999)).2) ∧
    (1000000 : Nat) ≠ 1999999 := by
  constructor
  · simp [csv_lines, Engine.ping, Engine.write_csv, Ledger.write_all, Ledger.flush,
      render_row, rtt_field]
  · decide

/-- Claim C9 amended: each data row is the timestamp display, a comma, and
either the latency in whole milliseconds (as_millis truncation of the rtt) or
the sentinel for a failure, under the fixed header; provided the timestamp
display contains no comma, the row parses back into exactly the timestamp and
the whole-millisecond-or-failed outcome — lossless at millisecond
granularity, with sub-millisecond precision discarded. -/
theorem row_roundtrip_spec (tsChars : List Char) (result : PingOutput)
    (h : ',' ∉ tsChars) :
    render_row tsChars result = tsChars ++ [','] ++ rtt_field result ++ ['\n'] ∧
    headerLine = "Timestamp,Latency(ms)\n" ∧
    parse_row (render_row tsChars result) =
      some (tsChars, result.map (fun ns => ns / 1000000)) := by
  refine ⟨rfl, rfl, ?_⟩
  have hsh : render_row tsChars result = tsChars ++ ',' :: (rtt_field result ++ ['\n']) := by
    simp [render_row]
  rw [parse_row, hsh, split_comma_append _ _ h]
  simp only [parse_rtt_render]
  rfl

/-- Witness for the row round-trip claim at a concrete timestamp display and
both outcome kinds. -/
theorem row_roundtrip_spec_witness :
    parse_row (render_row "2023-01-02 3:04:05.0 +00:00:00".toList (some 10500000)) =
      some ("2023-01-02 3:04:05.0 +00:00:00".toList, some 10) ∧
    parse_row (render_row "2023-01-02 3:04:05.0 +00:00:00".toList none) =
      some ("2023-01-02 3:04:05.0 +00:00:00".toList, none) := by
  have hmem : ',' ∉ "2023-01-02 3:04:05.0 +00:00:00".toList := by decide
  have h1 := (row_roundtrip_spec "2023-01-02 3:04:05.0 +00:00:00".toList (some 10500000) hmem).2.2
  have h2 := (row_roundtrip_spec "2023-01-02 3:04:05.0 +00:00:00".toList none hmem).2.2
  exact ⟨h1, h2⟩

end NumMonitor
